import Mathlib

/-!
Verification of the `git_branch` Ansible action plugin
(`plugins/action/git_branch.py`), as a shallow embedding in Lean 4.

The plugin enforces postconditions (CheckedOut, Committed, Pulled, Pushed)
on a git working copy.  External collaborators (the git binary, the
process-execution layer of the host framework) are modelled as an
environment record `GitEnv`; every definition below is translated from the
Python source, with the source method named in its doc comment.
-/

set_option maxRecDepth 10000

namespace GitBranchSpec

/-! ## Python string primitives

The source relies on a handful of `str` operations: `strip`, `splitlines`,
`split("/", 1)`, the `in` substring test, and one `re.sub`.  They are
re-implemented here over `List Char` so that everything reduces in the
kernel. -/

/-- Characters treated as whitespace by Python `str.strip()`. -/
def pyIsSpace (c : Char) : Bool :=
  c = ' ' || c = '\t' || c = '\n' || c = '\x0d' || c = '\x0b' || c = '\x0c'

/-- Python `s.strip()`: remove leading and trailing whitespace. -/
def pyStrip (s : String) : String :=
  (((s.toList.dropWhile pyIsSpace).reverse.dropWhile pyIsSpace).reverse).asString

/-- Auxiliary contiguous-sublist test on character lists. -/
def containsSub (pat : List Char) : List Char → Bool
  | [] => pat.isEmpty
  | c :: rest => pat.isPrefixOf (c :: rest) || containsSub pat rest

/-- Python `pat in s` substring test. -/
def strContains (s pat : String) : Bool :=
  containsSub pat.toList s.toList

/-- Auxiliary for `pySplitlines`: accumulate the current line (reversed). -/
def splitlinesAux (acc : List Char) : List Char → List (List Char)
  | [] => if acc.isEmpty then [] else [acc.reverse]
  | '\x0d' :: '\n' :: rest => acc.reverse :: splitlinesAux [] rest
  | '\n' :: rest => acc.reverse :: splitlinesAux [] rest
  | '\x0d' :: rest => acc.reverse :: splitlinesAux [] rest
  | c :: rest => splitlinesAux (c :: acc) rest

/-- Python `s.splitlines()` (no trailing empty line for a final newline). -/
def pySplitlines (s : String) : List String :=
  (splitlinesAux [] s.toList).map List.asString

/-- Auxiliary for `pySplitFirstSlash`: split at the first slash.
Only called on input known to contain a slash; without one, the whole
input ends up on the left with an empty right part. -/
def splitFirstSlashAux (acc : List Char) : List Char → List Char × List Char
  | [] => (acc.reverse, [])
  | '/' :: rest => (acc.reverse, rest)
  | c :: rest => splitFirstSlashAux (c :: acc) rest

/-- Python `s.split("/", 1)` for a string containing a slash, as a pair. -/
def pySplitFirstSlash (s : String) : String × String :=
  let p := splitFirstSlashAux [] s.toList
  (p.1.asString, p.2.asString)

/-! ## External collaborator model

`GitEnv` fixes, for one repository state, the observable behaviour of the
external git binary for exactly the queries the plugin issues.  It is the
interface-level model of the process-execution collaborator that the spec
declares out of scope. -/

/-- Result of one command invocation: exit code, stdout, stderr
(the structure the spec calls `CommandResult`). -/
structure CommandResult where
  rc : Nat
  stdout : String
  stderr : String
  deriving Repr, DecidableEq

/-- Modelled from the spec: the external git binary and process-execution
collaborator, specified only at its interface.  Each field gives the
observable outcome of one family of queries the plugin issues:
`upstreamShort` is the stdout of the `for-each-ref
--format="%(upstream:short)"` query for a named branch (`some b`) or the
current branch (`none`); `remotesStdout` is the stdout of `git remote`;
`fetchDryRunStderr` is the stderr of `fetch --dry-run <remote> <branch>`;
`isAncestor a b` tells whether commit `a` is an ancestor of commit `b`
(per the documented contract of `git merge-base --is-ancestor A B`, which
exits 0 when the first argument is an ancestor of the second and 1 when
it is not); `pushDryRunStderr` is the stderr of a `push --dry-run`
invocation keyed by its full argv; `diffRc` and `diffCachedRc` are the
exit codes of `diff --exit-code` and `diff --cached --exit-code`. -/
structure GitEnv where
  upstreamShort : Option String → String
  remotesStdout : String
  fetchDryRunStderr : String → String → String
  isAncestor : String → String → Bool
  pushDryRunStderr : List String → String
  diffRc : Nat
  diffCachedRc : Nat

/-- Modelled from the spec: the exit code of
`git merge-base --is-ancestor a b` (0 when `a` is an ancestor of `b`,
1 when it is not). -/
def mergeBaseResult (env : GitEnv) (a b : String) : CommandResult :=
  { rc := if env.isAncestor a b then 0 else 1, stdout := "", stderr := "" }

/-- From `GitSubaction.query`: when `expected_rc` is given, an exit code
outside that set is a tool failure (`failed_when`), propagated as a fatal
error; otherwise the result is passed through. -/
def GitSubaction.checkExpectedRc (expected_rc : Option (List Nat)) (res : CommandResult) :
    Except String CommandResult :=
  match expected_rc with
  | none => Except.ok res
  | some rcs =>
      if res.rc ∈ rcs then Except.ok res
      else Except.error ("git exited with unexpected status " ++ toString res.rc)

/-- From `GitSubaction._remotes`: the known remote names, i.e. the stdout
of `git remote` split into lines.  (The caching aspect of the source
property is modelled separately; see the instrumented model below.) -/
def GitSubaction.remotes (env : GitEnv) : List String :=
  pySplitlines env.remotesStdout

/-- From `GitSubaction._deconstruct_remote_name`: split a tracking-branch
short name into `(remote, branch)`.  No slash means a branch on the
implicit `origin` remote; otherwise split at the first slash and check the
left part against the known remotes, falling back to `origin` with the
whole string as branch name. -/
def GitSubaction.deconstruct_remote_name (remotes : List String) (branch_spec : String) :
    Option String × Option String :=
  if !(branch_spec.toList.contains '/') then
    (some "origin", some branch_spec)
  else
    if remotes.contains (pySplitFirstSlash branch_spec).1 then
      (some (pySplitFirstSlash branch_spec).1, some (pySplitFirstSlash branch_spec).2)
    else
      (some "origin", some branch_spec)

/-- From `GitSubaction.query_upstream`: resolve the upstream of the given
branch (or of the current branch when `branch = none`).  The
`for-each-ref` stdout is stripped; an empty result means no upstream is
configured, reported as `(none, none)`. -/
def GitSubaction.query_upstream (env : GitEnv) (branch : Option String) :
    Option String × Option String :=
  let branch_spec := pyStrip (env.upstreamShort branch)
  if branch_spec = "" then
    (none, none)
  else
    GitSubaction.deconstruct_remote_name (GitSubaction.remotes env) branch_spec

/-! ## Postcondition runtime model

Each `GitBranchXxx` class method is translated as a function over the
fields the corresponding object carries plus the `GitEnv`.  Fallible
methods (those that can raise `AnsibleError` or a Python `TypeError`)
return `Except String`. -/

/-- Python truthiness of an optional string attribute
(`None` and `""` are falsy). -/
def optStrTruthy : Option String → Bool
  | none => false
  | some s => !(s == "")

/-- Python `"%s" % v` formatting of a `str`-or-`None` value:
`None` prints as the text `None`. -/
def pyStr : Option String → String
  | none => "None"
  | some s => s

/-- From `GitBranchPostconditionBase.moniker`: the property body is a
conditional string expression, but the source has no `return` statement,
so the computed string is discarded and the property always yields
Python `None`. -/
def GitBranchPostconditionBase.moniker (branch_name : Option String) : Option String :=
  let _discarded : String :=
    if optStrTruthy branch_name then "branch `" ++ pyStr branch_name ++ "`"
    else "current branch"
  none

/-- From `GitBranchPostconditionBase.passive`: in verify mode, report that
the postcondition does not hold, formatting the explainer; otherwise
(ensure mode) fall through, returning `None`. -/
def GitBranchPostconditionBase.passive (verify : Bool) (explainer : String) : Option String :=
  if verify then some (explainer ++ ": does not hold, bailing out (`verify` only)")
  else none

/-- Fields of a `GitBranchPulled` object (besides the common base
attributes): `pull_from` is the branch spec selecting the upstream,
`rebase` and `autostash` feed `enforce`. -/
structure PulledParams where
  pull_from : Option String
  rebase : Bool
  autostash : Bool
  branch_name : Option String

/-- Fields of a `GitBranchPushed` object: `toSpec` is the source `to`
kwarg (the branch spec; `to` is a reserved word in Lean), `force` and
`force_with_lease` select the push flags. -/
structure PushedParams where
  toSpec : Option String
  force : Bool
  force_with_lease : Bool
  branch_name : Option String

/-- From `GitBranchPushOrPullBase._get_upstream_or_throw`: resolve the
upstream of `branch_spec` and raise a fatal `AnsibleError` when the first
component is absent.  (`query_upstream` never returns a partially absent
pair — `query_upstream_total` below — so the remaining match arm is
unreachable.) -/
def GitBranchPushOrPullBase.getUpstreamOrThrow (env : GitEnv) (branch_spec : Option String) :
    Except String (String × String) :=
  match GitSubaction.query_upstream env branch_spec with
  | (none, _) => Except.error "No upstream branch configured"
  | (some r, some b) => Except.ok (r, b)
  | (some _, none) => Except.error "No upstream branch configured"

/-- From `GitBranchCheckedOut.explainer`. -/
def GitBranchCheckedOut.explainer (branch_name : Option String) : String :=
  if optStrTruthy branch_name then
    "checked_out: " ++ pyStr (GitBranchPostconditionBase.moniker branch_name)
      ++ " is checked out"
  else
    "checked_out: any branch is checked out"

/-- The class `GitBranchCheckedOut` has no `passive` override: it inherits the base
behaviour, formatting its own explainer. -/
def GitBranchCheckedOut.passive (verify : Bool) (branch_name : Option String) : Option String :=
  GitBranchPostconditionBase.passive verify (GitBranchCheckedOut.explainer branch_name)

/-- From `GitBranchCommitted.explainer`: the source concatenates
`"repository is committed to " + self.moniker` with Python `+`; since
`moniker` is `None`, that raises `TypeError` instead of producing a
string. -/
def GitBranchCommitted.explainer (branch_name : Option String) : Except String String :=
  match GitBranchPostconditionBase.moniker branch_name with
  | some m => Except.ok ("repository is committed to " ++ m)
  | none => Except.error "TypeError: can only concatenate str (not NoneType) to str"

/-- From `GitBranchCommitted.holds`: query the unstaged diff and the
staged (cached) diff, each with `expected_rc=(0, 1)`; the tree is
committed when both exit with 0. -/
def GitBranchCommitted.holds (env : GitEnv) : Except String Bool := do
  let git_status_red ← GitSubaction.checkExpectedRc (some [0, 1])
    { rc := env.diffRc, stdout := "", stderr := "" }
  let git_status_green ← GitSubaction.checkExpectedRc (some [0, 1])
    { rc := env.diffCachedRc, stdout := "", stderr := "" }
  pure (git_status_red.rc == 0 && git_status_green.rc == 0)

/-- From `GitBranchCommitted.passive`: overridden to veto enforcement
when no commit message was supplied.  Note that, unlike the base class
method, this override never consults `self.verify`. -/
def GitBranchCommitted.passive (_verify : Bool) (message : Option String) : Option String :=
  if message.isSome then none
  else some "Cannot auto-commit â€” No `.commit.message` specified in task"

/-- From `GitBranchPulled.explainer`: `%s`-interpolates the moniker and
the qualified remote branch; resolving the upstream can raise. -/
def GitBranchPulled.explainer (env : GitEnv) (p : PulledParams) : Except String String := do
  let up ← GitBranchPushOrPullBase.getUpstreamOrThrow env p.pull_from
  pure (pyStr (GitBranchPostconditionBase.moniker p.branch_name)
    ++ " is up-to-date (pulled) from " ++ up.1 ++ "/" ++ up.2)

/-- The class `GitBranchPulled` inherits the base `passive`: in verify mode it
formats its explainer (which resolves the upstream), otherwise it returns
`None` without touching the repository. -/
def GitBranchPulled.passive (env : GitEnv) (p : PulledParams) (verify : Bool) :
    Except String (Option String) :=
  if verify then do
    let e ← GitBranchPulled.explainer env p
    pure (some (e ++ ": does not hold, bailing out (`verify` only)"))
  else
    pure none

/-- From `GitBranchPulled.holds`: `not (self._needs_fetch() or
self._needs_pull())`.  `_needs_fetch` looks for the `..` ref-move marker
in the stderr of `fetch --dry-run <remote> <remote_branch>` (no
`expected_rc`); `_needs_pull` runs `merge-base --is-ancestor
<remote>/<remote_branch> HEAD` with `expected_rc=(0, 1)` and reads exit
code 1 as "the remote branch is not an ancestor of HEAD".  The `or`
short-circuits: when the fetch marker is present the ancestry query is
not issued. -/
def GitBranchPulled.holds (env : GitEnv) (p : PulledParams) : Except String Bool := do
  let up ← GitBranchPushOrPullBase.getUpstreamOrThrow env p.pull_from
  let needs_fetch := strContains (env.fetchDryRunStderr up.1 up.2) ".."
  if needs_fetch then
    pure false
  else do
    let anc ← GitSubaction.checkExpectedRc (some [0, 1])
      (mergeBaseResult env (up.1 ++ "/" ++ up.2) "HEAD")
    pure (!(anc.rc == 1))

/-- From `GitBranchPushed._push_args`: `--force` wins over
`--force-with-lease`, at most one of the two is emitted, then the
resolved remote and remote branch. -/
def GitBranchPushed.push_args (env : GitEnv) (p : PushedParams) : Except String (List String) := do
  let up ← GitBranchPushOrPullBase.getUpstreamOrThrow env p.toSpec
  pure ((if p.force then ["--force"]
    else if p.force_with_lease then ["--force-with-lease"]
    else []) ++ [up.1, up.2])

/-- The argv of the dry-run query issued by `GitBranchPushed.holds`
(`self.git.query("push", "--dry-run", *self._push_args)`). -/
def GitBranchPushed.holdsQueryArgv (env : GitEnv) (p : PushedParams) :
    Except String (List String) :=
  (GitBranchPushed.push_args env p).map (fun args => "push" :: "--dry-run" :: args)

/-- The argv of the mutating command issued by `GitBranchPushed.enforce`
(`self.git.change("push", *self._push_args)`). -/
def GitBranchPushed.enforceArgv (env : GitEnv) (p : PushedParams) :
    Except String (List String) :=
  (GitBranchPushed.push_args env p).map (fun args => "push" :: args)

/-- From `GitBranchPushed.holds`: `not self._needs_push()`, where
`_needs_push` looks for the `->` ref-update marker in the stderr of the
dry-run push. -/
def GitBranchPushed.holds (env : GitEnv) (p : PushedParams) : Except String Bool := do
  let args ← GitBranchPushed.push_args env p
  pure (!(strContains (env.pushDryRunStderr ("push" :: "--dry-run" :: args)) "->"))

/-- From `GitBranchPushed.explainer`. -/
def GitBranchPushed.explainer (p : PushedParams) : String :=
  pyStr (GitBranchPostconditionBase.moniker p.branch_name) ++ " is pushed"

/-- The class `GitBranchPushed` inherits the base `passive`. -/
def GitBranchPushed.passive (verify : Bool) (p : PushedParams) : Option String :=
  GitBranchPostconditionBase.passive verify (GitBranchPushed.explainer p)

/-! ## Command construction (`GitSubaction._to_command_dict`) -/

/-- A word character for the purposes of the `\b` boundary in the
the regex of the source, `(^|\$\(|` backtick `)git\b`, in its
(ASCII `[A-Za-z0-9_]`). -/
def isWordChar (c : Char) : Bool :=
  c.isAlphanum || c == '_'

/-- The `\b` boundary after `git`: end of string or a non-word
character. -/
def wordBoundary : List Char → Bool
  | [] => true
  | c :: _ => !isWordChar c

/-- Scanning core of the `re.sub` call in the source: replace `git` (followed by a
word boundary) when it is preceded by `$(` or by a backtick, keeping the
prefix, and scan left-to-right without rescanning replacements.  The
characters `g`, `i`, `t` and a following word character can never start
another match, so skipping them on a failed boundary preserves the regex
semantics. -/
def substGitGo (g : List Char) : List Char → List Char
  | '$' :: '(' :: 'g' :: 'i' :: 't' :: rest =>
      if wordBoundary rest then '$' :: '(' :: (g ++ substGitGo g rest)
      else '$' :: '(' :: 'g' :: 'i' :: 't' :: substGitGo g rest
  | '`' :: 'g' :: 'i' :: 't' :: rest =>
      if wordBoundary rest then '`' :: (g ++ substGitGo g rest)
      else '`' :: 'g' :: 'i' :: 't' :: substGitGo g rest
  | c :: rest => c :: substGitGo g rest
  | [] => []

/-- The `re.sub` of the source over `(^|\$\(|` backtick `)git\b`, where
`repl` keeps the matched prefix and substitutes the configured git
command: the `^` alternative is handled here, the other two in
`substGitGo`. -/
def pySubGit (g : String) (s : String) : String :=
  match s.toList with
  | 'g' :: 'i' :: 't' :: rest =>
      if wordBoundary rest then (g.toList ++ substGitGo g.toList rest).asString
      else (substGitGo g.toList ('g' :: 'i' :: 't' :: rest)).asString
  | cs => (substGitGo g.toList cs).asString

/-- The dictionary handed to the `command` module: shell form
(`_uses_shell=True` with `_raw_params`) or argv form, always with the
repository path as `chdir`. -/
structure CommandDict where
  uses_shell : Bool
  chdir : Option String
  raw_params : Option String
  argv : Option (List String)
  deriving Repr, DecidableEq

/-- From `GitSubaction._to_command_dict`: a single argument containing a
space becomes a shell-interpreted command line, prefixed with `git ` and
with literal `git` occurrences substituted by the configured executable;
anything else becomes an argv-style invocation headed by the configured
executable.  The repository path only ever lands in `chdir`. -/
def GitSubaction.to_command_dict (git_command : String) (repository_path : Option String)
    (argv : List String) : CommandDict :=
  match argv with
  | [a] =>
      if strContains a " " then
        { uses_shell := true, chdir := repository_path,
          raw_params := some (pySubGit git_command ("git " ++ a)), argv := none }
      else
        { uses_shell := false, chdir := repository_path,
          raw_params := none, argv := some (git_command :: argv) }
  | _ =>
      { uses_shell := false, chdir := repository_path,
        raw_params := none, argv := some (git_command :: argv) }

/-- From `GitSubaction.__init__`: the configured git command defaults to
`git` when not supplied. -/
def GitSubaction.resolveGitCommand (git_command : Option String) : String :=
  git_command.getD "git"

/-! ## Specification decoder (`as_postconditions` and `ActionModule.run`)

Task arguments arrive as YAML data; `PyVal` models the Python values
involved and dictionaries are association lists in declaration order. -/

/-- A Python value as supplied by Ansible task args. -/
inductive PyVal where
  | none
  | bool (b : Bool)
  | str (s : String)
  | dict (entries : List (String × PyVal))
  | list (items : List PyVal)
  deriving Repr

/-- Python type name, used in the `TypeError` messages of the decoder. -/
def pyTypeName : PyVal → String
  | .none => "NoneType"
  | .bool _ => "bool"
  | .str _ => "str"
  | .dict _ => "dict"
  | .list _ => "list"

/-- Python truthiness of a `PyVal`. -/
def pyTruthy : PyVal → Bool
  | .none => false
  | .bool b => b
  | .str s => !(s == "")
  | .dict d => !d.isEmpty
  | .list l => !l.isEmpty

/-- Truthiness of `dict.pop(key, None)`: an absent key is falsy. -/
def pyTruthyOpt : Option PyVal → Bool
  | Option.none => false
  | Option.some v => pyTruthy v

/-- Python `dict.pop(k, None)`: the removed value (if any) and the
remaining dictionary. -/
def popKey : List (String × PyVal) → String → Option PyVal × List (String × PyVal)
  | [], _ => (Option.none, [])
  | (k', v) :: rest, k =>
      if k' == k then (Option.some v, rest)
      else
        ((popKey rest k).1, (k', v) :: (popKey rest k).2)

/-- Python `k in dict`. -/
def hasKey (d : List (String × PyVal)) (k : String) : Bool :=
  (d.find? (fun e => e.1 == k)).isSome

/-- Python `dict[k]` lookup without removal. -/
def getKey (d : List (String × PyVal)) (k : String) : Option PyVal :=
  (d.find? (fun e => e.1 == k)).map (fun e => e.2)

/-- Python `dict.get(k)`: `None` when the key is absent. -/
def pyGet (d : List (String × PyVal)) (k : String) : PyVal :=
  (getKey d k).getD .none

/-- The keyword arguments shared by every postcondition constructor:
`branch`, `repository`, `git_command` from the task args (each possibly
Python `None`) and the verify/ensure mode. -/
structure CommonKw where
  branch_name : PyVal
  repository_path : PyVal
  git_command : PyVal
  verify : Bool
  deriving Repr

/-- A decoded postcondition: the constructor the decoder invoked together
with the attribute values the constructed object would carry. -/
inductive DecodedPC where
  | checkedOut (common : CommonKw)
  | committed (common : CommonKw) (message : PyVal)
  | pulled (common : CommonKw) (pull_from rebase autostash : PyVal)
  | pushed (common : CommonKw) (to_kwarg force force_with_lease : PyVal)
  deriving Repr

/-- The common kwargs a decoded postcondition was constructed with. -/
def DecodedPC.common : DecodedPC → CommonKw
  | .checkedOut c => c
  | .committed c _ => c
  | .pulled c _ _ _ => c
  | .pushed c _ _ _ => c

/-- From `GitBranchPulled.__init__ (self, pull_from, rebase=False,
autostash=False, **kwargs)`: `pull_from` has no default, so constructing
without it raises `TypeError`; `rebase` and `autostash` default to
`False` when the kwarg is not passed at all (`Option.none` here means
"kwarg not passed", `some .none` means "passed Python None"). -/
def GitBranchPulled.construct (common : CommonKw) (pull_from rebase autostash : Option PyVal) :
    Except String DecodedPC :=
  match pull_from with
  | Option.none =>
      Except.error "TypeError: GitBranchPulled missing 1 required positional argument: pull_from"
  | Option.some pf =>
      Except.ok (.pulled common pf (rebase.getD (.bool false)) (autostash.getD (.bool false)))

/-- From `GitBranchPushed.__init__ (self, to=None, force=False,
force_with_lease=False, **kwargs)` applied to `**push_params`: the three
known kwargs are bound (with their defaults), and any remaining key ends
up in `**kwargs` and makes the base `__init__` raise `TypeError`. -/
def GitBranchPushed.construct (common : CommonKw) (kwargs : List (String × PyVal)) :
    Except String DecodedPC :=
  let p1 := popKey kwargs "to"
  let p2 := popKey p1.2 "force"
  let p3 := popKey p2.2 "force_with_lease"
  if p3.2.isEmpty then
    Except.ok (.pushed common (p1.1.getD .none) (p2.1.getD (.bool false))
      (p3.1.getD (.bool false)))
  else
    Except.error "TypeError: __init__ got an unexpected keyword argument"

/-- The `committed` key of `as_postconditions`: absent or `None` adds
nothing, `True` adds a `GitBranchCommitted` with no message, a dict adds
one with its (required) `message` entry, anything else is a
`TypeError`. -/
def decodeCommitted (common : CommonKw) : Option PyVal → Except String (List DecodedPC)
  | Option.none => Except.ok []
  | Option.some .none => Except.ok []
  | Option.some (.bool true) => Except.ok [.committed common .none]
  | Option.some (.dict d) =>
      match getKey d "message" with
      | Option.some m => Except.ok [.committed common m]
      | Option.none => Except.error "KeyError: message"
  | Option.some v => Except.error ("Unsupported type for `committed`: " ++ pyTypeName v)

/-- One element of the `pull` list: a dict passes `from`, `rebase` and
`autostash` through `dict.get` (so always explicitly, possibly as
`None`); `True` passes no kwargs at all, which trips the missing
`pull_from` default; anything else is a `TypeError`. -/
def decodePull (common : CommonKw) (pull : PyVal) : Except String DecodedPC :=
  match pull with
  | .dict d =>
      GitBranchPulled.construct common (Option.some (pyGet d "from"))
        (Option.some (pyGet d "rebase")) (Option.some (pyGet d "autostash"))
  | .bool true => GitBranchPulled.construct common Option.none Option.none Option.none
  | v => Except.error ("Unsupported type found in `pull`: " ++ pyTypeName v)

/-- The `for pull in pull_list` loop, in declaration order, stopping at
the first error. -/
def decodePulls (common : CommonKw) : List PyVal → Except String (List DecodedPC)
  | [] => Except.ok []
  | pull :: rest =>
      match decodePull common pull with
      | Except.error e => Except.error e
      | Except.ok pc =>
          match decodePulls common rest with
          | Except.error e => Except.error e
          | Except.ok pcs => Except.ok (pc :: pcs)

/-- The `push` key of `as_postconditions`: a falsy value (absent, `None`,
`False`, empty dict) adds nothing; a dict or `True` constructs a
`GitBranchPushed`; any other truthy value is a `TypeError`. -/
def decodePush (common : CommonKw) : Option PyVal → Except String (List DecodedPC)
  | Option.none => Except.ok []
  | Option.some v =>
      if pyTruthy v then
        match v with
        | .dict d =>
            match GitBranchPushed.construct common d with
            | Except.error e => Except.error e
            | Except.ok pc => Except.ok [pc]
        | .bool true =>
            match GitBranchPushed.construct common [] with
            | Except.error e => Except.error e
            | Except.ok pc => Except.ok [pc]
        | _ => Except.error ("Unsupported type for `push`: " ++ pyTypeName v)
      else
        Except.ok []

/-- From `as_postconditions`: pop the shared task args, then decode
`checked_out`, `committed`, `pull` and `push` in that order, and reject
leftover keys at either level. -/
def as_postconditions (task_args todo : List (String × PyVal)) (verify : Bool) :
    Except String (List DecodedPC) :=
  let pBranch := popKey task_args "branch"
  let pRepo := popKey pBranch.2 "repository"
  let pGit := popKey pRepo.2 "git_command"
  let common : CommonKw :=
    { branch_name := pBranch.1.getD .none, repository_path := pRepo.1.getD .none,
      git_command := pGit.1.getD .none, verify := verify }
  let pCo := popKey todo "checked_out"
  let coPcs : List DecodedPC := if pyTruthyOpt pCo.1 then [.checkedOut common] else []
  let pCm := popKey pCo.2 "committed"
  match decodeCommitted common pCm.1 with
  | Except.error e => Except.error e
  | Except.ok cmPcs =>
      let pPull := popKey pCm.2 "pull"
      let pull_list : List PyVal :=
        match pPull.1 with
        | Option.none => []
        | Option.some (.list l) => l
        | Option.some v => [v]
      match decodePulls common pull_list with
      | Except.error e => Except.error e
      | Except.ok pullPcs =>
          let pPush := popKey pPull.2 "push"
          match decodePush common pPush.1 with
          | Except.error e => Except.error e
          | Except.ok pushPcs =>
              if !pPush.2.isEmpty then
                Except.error "git_branch: unknown parameter(s) under `verify` or `ensure`"
              else if !pGit.2.isEmpty then
                Except.error "git_branch: unknown task parameter(s)"
              else
                Except.ok (coPcs ++ cmPcs ++ pullPcs ++ pushPcs)

/-- Decode the popped `verify`/`ensure` value: it must be a dict (the
source immediately calls `.pop` on it). -/
def decodeTodo (task_args : List (String × PyVal)) (todo : PyVal) (verify : Bool) :
    Except String (Bool × List DecodedPC) :=
  match todo with
  | .dict d =>
      match as_postconditions task_args d verify with
      | Except.error e => Except.error e
      | Except.ok pcs => Except.ok (verify, pcs)
  | _ => Except.error "AttributeError: object has no attribute pop"

/-- From `ActionModule.run`: `verify` and `ensure` are mutually
exclusive and one of them is required; the check happens before any
postcondition is constructed and before any command runs. -/
def ActionModule.run (task_args : List (String × PyVal)) :
    Except String (Bool × List DecodedPC) :=
  if hasKey task_args "verify" then
    if hasKey task_args "ensure" then
      Except.error "`verify` and `ensure` are mutually exclusive"
    else
      decodeTodo (popKey task_args "verify").2 ((popKey task_args "verify").1.getD .none) true
  else if hasKey task_args "ensure" then
    decodeTodo (popKey task_args "ensure").2 ((popKey task_args "ensure").1.getD .none) false
  else
    Except.error "One of `verify` and `ensure` must be present"

/-! ## Driving loop (external collaborator)

`run_postcondition` lives in the `epfl_si.actions` collection, outside
the sources of this repository. -/

/-- The holds/passive interface one postcondition presents to the driving
loop (with `enforce` tracked only as "was it invoked"). -/
structure PostconditionIface where
  verify : Bool
  holds : Except String Bool
  passive : Except String (Option String)

/-- Outcome of driving one postcondition. -/
inductive Outcome where
  | satisfied
  | failedReason (msg : String)
  | assertionFailed
  | wouldChange
  | enforced
  deriving Repr, DecidableEq

/-- Modelled from the spec: the driving loop `run_postcondition` of the
external `epfl_si.actions` collection (not under `src/`), following
section 4.1 of the spec: evaluate `holds`; when unmet and in verify mode
or dry-run, consult `passive` and fail with its reason, or report a
failed assertion in verify mode, or report the pending change in
dry-run; when unmet in ensure mode, consult `passive` (veto) and
otherwise call `enforce`.  The returned Bool records whether `enforce`
was invoked. -/
def run_postcondition (p : PostconditionIface) (check_mode : Bool) :
    Except String (Outcome × Bool) := do
  let h ← p.holds
  if h then
    pure (Outcome.satisfied, false)
  else if p.verify || check_mode then do
    let r ← p.passive
    match r with
    | Option.some reason => pure (Outcome.failedReason reason, false)
    | Option.none =>
        if p.verify then pure (Outcome.assertionFailed, false)
        else pure (Outcome.wouldChange, false)
  else do
    let r ← p.passive
    match r with
    | Option.some reason => pure (Outcome.failedReason reason, false)
    | Option.none => pure (Outcome.enforced, true)

/-! ## Instrumented attribute model for the memoized lookups

The source caches `self.__upstream`, `self.__remotes` (and `self.__git`)
behind `hasattr(self, "__name")` tests.  Inside a class body Python
mangles the attribute reference `self.__name` to
`self._ClassName__name`, but the string literal passed to `hasattr` is
not mangled, so the test looks for an attribute that is never written.
The model below carries the attribute dictionary of the object explicitly and
counts the repository queries issued. -/

/-- Python name mangling for class-private identifiers (an identifier
starting with two underscores and not ending with two underscores gets
the class name spliced in). -/
def pyMangle (cls attr : String) : String :=
  if attr.toList.take 2 = ['_', '_'] && !(attr.toList.reverse.take 2 = ['_', '_']) then
    "_" ++ cls ++ attr
  else attr

/-- The attribute dictionary of a Python object (restricted to one value
type). -/
structure PyAttrs (α : Type) where
  entries : List (String × α)
  deriving Repr

/-- Python `hasattr(self, name)`. -/
def PyAttrs.hasattr {α : Type} (o : PyAttrs α) (name : String) : Bool :=
  (o.entries.find? (fun e => e.1 == name)).isSome

/-- Python `getattr(self, name)` as an `Option`. -/
def PyAttrs.getattr {α : Type} (o : PyAttrs α) (name : String) : Option α :=
  (o.entries.find? (fun e => e.1 == name)).map (fun e => e.2)

/-- Python `setattr(self, name, v)`. -/
def PyAttrs.setattr {α : Type} (o : PyAttrs α) (name : String) (v : α) : PyAttrs α :=
  { entries := (name, v) :: o.entries.filter (fun e => !(e.1 == name)) }

/-- Result of one instrumented call: the value (or error), the updated
attribute dictionary of the object, and how many repository queries the call
issued. -/
structure InstrResult (α σ : Type) where
  value : Except String α
  state : σ
  queries : Nat
  deriving Repr

/-- From `GitBranchPushOrPullBase._get_upstream_or_throw`, instrumented:
the source guards the upstream query with `hasattr(self, "__upstream")`
(unmangled string) but stores the result under the mangled name
`_GitBranchPushOrPullBase__upstream`, then checks component 0 of the
mangled attribute and raises when it is `None`. -/
def GitBranchPushOrPullBase.getUpstreamOrThrowInstr (env : GitEnv)
    (branch_spec : Option String) (o : PyAttrs (Option String × Option String)) :
    InstrResult (Option String × Option String) (PyAttrs (Option String × Option String)) :=
  if o.hasattr "__upstream" then
    match o.getattr (pyMangle "GitBranchPushOrPullBase" "__upstream") with
    | Option.some up =>
        { value := if up.1.isNone then Except.error "No upstream branch configured"
            else Except.ok up,
          state := o, queries := 0 }
    | Option.none =>
        { value := Except.error "AttributeError: __upstream", state := o, queries := 0 }
  else
    let up := GitSubaction.query_upstream env branch_spec
    let o1 := o.setattr (pyMangle "GitBranchPushOrPullBase" "__upstream") up
    { value := if up.1.isNone then Except.error "No upstream branch configured"
        else Except.ok up,
      state := o1, queries := 1 }

/-- From `GitSubaction._remotes`, instrumented: same mangling mismatch —
the guard tests `hasattr(self, "__remotes")` while the assignment writes
`_GitSubaction__remotes`. -/
def GitSubaction.remotesInstr (env : GitEnv) (g : PyAttrs (List String)) :
    InstrResult (List String) (PyAttrs (List String)) :=
  if g.hasattr "__remotes" then
    match g.getattr (pyMangle "GitSubaction" "__remotes") with
    | Option.some rs => { value := Except.ok rs, state := g, queries := 0 }
    | Option.none => { value := Except.error "AttributeError: __remotes", state := g, queries := 0 }
  else
    let rs := pySplitlines env.remotesStdout
    let g1 := g.setattr (pyMangle "GitSubaction" "__remotes") rs
    { value := Except.ok rs, state := g1, queries := 1 }

/-! ## Concrete environments and inputs for witnesses and counterexamples -/

/-- A repository state where the upstream of `main` is `origin/main`,
nothing needs fetching, and HEAD is strictly ahead of `origin/main`
(the remote branch is an ancestor of HEAD, HEAD is not an ancestor of
the remote branch). -/
def envAhead : GitEnv :=
  { upstreamShort := fun _ => "origin/main\n",
    remotesStdout := "origin\n",
    fetchDryRunStderr := fun _ _ => "",
    isAncestor := fun a b => a == "origin/main" && b == "HEAD",
    pushDryRunStderr := fun _ => "",
    diffRc := 0, diffCachedRc := 0 }

/-- The `GitBranchPulled` object for `pull: {from: main}`. -/
def pulledMain : PulledParams :=
  { pull_from := some "main", rebase := false, autostash := false, branch_name := some "main" }

/-- A repository state with an unstaged modification
(`git diff --exit-code` exits 1). -/
def envDirty : GitEnv :=
  { upstreamShort := fun _ => "origin/main\n",
    remotesStdout := "origin\n",
    fetchDryRunStderr := fun _ _ => "",
    isAncestor := fun _ _ => true,
    pushDryRunStderr := fun _ => "",
    diffRc := 1, diffCachedRc := 0 }

/-- A repository state used by the memoization counterexample. -/
def envMemo : GitEnv :=
  { upstreamShort := fun _ => "origin/main\n",
    remotesStdout := "origin\n",
    fetchDryRunStderr := fun _ _ => "",
    isAncestor := fun _ _ => true,
    pushDryRunStderr := fun _ => "",
    diffRc := 0, diffCachedRc := 0 }

/-- First instrumented `_get_upstream_or_throw` call on a fresh object. -/
def memoRun1 : InstrResult (Option String × Option String) (PyAttrs (Option String × Option String)) :=
  GitBranchPushOrPullBase.getUpstreamOrThrowInstr envMemo (some "main") { entries := [] }

/-- Second instrumented `_get_upstream_or_throw` call, on the object
state left by the first call. -/
def memoRun2 : InstrResult (Option String × Option String) (PyAttrs (Option String × Option String)) :=
  GitBranchPushOrPullBase.getUpstreamOrThrowInstr envMemo (some "main") memoRun1.state

/-- First instrumented `_remotes` access on a fresh `GitSubaction`. -/
def memoRemotes1 : InstrResult (List String) (PyAttrs (List String)) :=
  GitSubaction.remotesInstr envMemo { entries := [] }

/-- Second instrumented `_remotes` access. -/
def memoRemotes2 : InstrResult (List String) (PyAttrs (List String)) :=
  GitSubaction.remotesInstr envMemo memoRemotes1.state

/-- The task args of the C5 decoder scenario
(`branch: release`, `ensure` already popped). -/
def scenarioTaskArgs : List (String × PyVal) := [("branch", .str "release")]

/-- The `ensure` value of the C5 decoder scenario:
`checked_out: true` and `pull: [{from: main, rebase: true}, true]`. -/
def scenarioTodo : List (String × PyVal) :=
  [("checked_out", .bool true),
   ("pull", .list [.dict [("from", .str "main"), ("rebase", .bool true)], .bool true])]

/-! ## Theorems -/

/-- Resolution via `query_upstream` never returns a partially absent pair: either both
components are absent or both are present. -/
lemma query_upstream_total (env : GitEnv) (branch : Option String) :
    GitSubaction.query_upstream env branch = (none, none) ∨
      ∃ r b, GitSubaction.query_upstream env branch = (some r, some b) := by
  unfold GitSubaction.query_upstream
  by_cases h : pyStrip (env.upstreamShort branch) = ""
  · simp [h]
  · right
    simp only [h, if_false]
    unfold GitSubaction.deconstruct_remote_name
    split
    · exact ⟨_, _, rfl⟩
    · split
      · exact ⟨_, _, rfl⟩
      · exact ⟨_, _, rfl⟩

/-- C2: upstream resolution.  A tracking value without a slash resolves to
`(origin, whole value)`; `origin/feature` with known remotes
`origin, upstream` resolves to `(origin, feature)`; `upstream/feature/x`
resolves to `(upstream, feature/x)`; `weird-name/foo` with `weird-name`
not a known remote resolves to `(origin, weird-name/foo)`; an empty
tracking value yields `(absent, absent)`, and the result is never a
partially absent pair. -/
theorem c2_upstream_resolution :
    (∀ (remotes : List String) (s : String), s.toList.contains '/' = false →
        GitSubaction.deconstruct_remote_name remotes s = (some "origin", some s)) ∧
    GitSubaction.deconstruct_remote_name ["origin", "upstream"] "origin/feature"
      = (some "origin", some "feature") ∧
    GitSubaction.deconstruct_remote_name ["origin", "upstream"] "upstream/feature/x"
      = (some "upstream", some "feature/x") ∧
    GitSubaction.deconstruct_remote_name ["origin", "upstream"] "weird-name/foo"
      = (some "origin", some "weird-name/foo") ∧
    (∀ (env : GitEnv) (branch : Option String),
        pyStrip (env.upstreamShort branch) = "" →
        GitSubaction.query_upstream env branch = (none, none)) ∧
    (∀ (env : GitEnv) (branch : Option String),
        GitSubaction.query_upstream env branch = (none, none) ∨
          ∃ r b, GitSubaction.query_upstream env branch = (some r, some b)) := by
  refine ⟨?_, ?_, ?_, ?_, ?_, ?_⟩
  · intro remotes s h
    unfold GitSubaction.deconstruct_remote_name
    rw [h]
    simp
  · decide
  · decide
  · decide
  · intro env branch h
    unfold GitSubaction.query_upstream
    simp [h]
  · intro env branch
    exact query_upstream_total env branch

/-- Witness for C2: the general clauses applied at concrete inputs. -/
theorem c2_upstream_resolution_witness :
    GitSubaction.deconstruct_remote_name ["origin"] "feature" = (some "origin", some "feature") ∧
    GitSubaction.query_upstream
      { upstreamShort := fun _ => "\n", remotesStdout := "origin\n",
        fetchDryRunStderr := fun _ _ => "", isAncestor := fun _ _ => true,
        pushDryRunStderr := fun _ => "", diffRc := 0, diffCachedRc := 0 }
      (some "dev") = (none, none) := by
  constructor
  · exact c2_upstream_resolution.1 ["origin"] "feature" (by decide)
  · exact c2_upstream_resolution.2.2.2.2.1 _ (some "dev") (by decide)

/-- C3: `Committed.holds()` is true iff both diff queries exit 0; exit
code 1 from either query means "differences exist" and yields `false`,
not an error; any exit code outside 0 and 1 from either query is a fatal
tool failure that fails the whole evaluation. -/
theorem c3_committed_holds_exit_codes :
    ∀ env : GitEnv,
      ((env.diffRc = 0 ∨ env.diffRc = 1) → (env.diffCachedRc = 0 ∨ env.diffCachedRc = 1) →
        GitBranchCommitted.holds env = Except.ok (env.diffRc == 0 && env.diffCachedRc == 0)) ∧
      (GitBranchCommitted.holds env = Except.ok true ↔
        env.diffRc = 0 ∧ env.diffCachedRc = 0) ∧
      (¬(env.diffRc = 0 ∨ env.diffRc = 1) →
        ∃ msg, GitBranchCommitted.holds env = Except.error msg) ∧
      ((env.diffRc = 0 ∨ env.diffRc = 1) → ¬(env.diffCachedRc = 0 ∨ env.diffCachedRc = 1) →
        ∃ msg, GitBranchCommitted.holds env = Except.error msg) := by
  intro env
  have hmem : ∀ n : Nat, n ∈ ([0, 1] : List Nat) ↔ (n = 0 ∨ n = 1) := by
    intro n
    simp
  refine ⟨?_, ?_, ?_, ?_⟩
  · intro h1 h2
    simp [GitBranchCommitted.holds, GitSubaction.checkExpectedRc, Bind.bind, Except.bind, Pure.pure, Except.pure,
      hmem, h1, h2]
  · constructor
    · intro h
      by_cases h1 : env.diffRc = 0 ∨ env.diffRc = 1
      · by_cases h2 : env.diffCachedRc = 0 ∨ env.diffCachedRc = 1
        · simp [GitBranchCommitted.holds, GitSubaction.checkExpectedRc, Bind.bind,
            Except.bind, Pure.pure, Except.pure, hmem, h1, h2] at h
          exact h
        · simp [GitBranchCommitted.holds, GitSubaction.checkExpectedRc, Bind.bind,
            Except.bind, Pure.pure, Except.pure, hmem, h1, h2] at h
      · simp [GitBranchCommitted.holds, GitSubaction.checkExpectedRc, Bind.bind,
          Except.bind, Pure.pure, Except.pure, hmem, h1] at h
    · rintro ⟨h1, h2⟩
      simp [GitBranchCommitted.holds, GitSubaction.checkExpectedRc, Bind.bind, Except.bind, Pure.pure, Except.pure,
        hmem, h1, h2]
  · intro h1
    refine ⟨"git exited with unexpected status " ++ toString env.diffRc, ?_⟩
    simp [GitBranchCommitted.holds, GitSubaction.checkExpectedRc, Bind.bind, Except.bind, Pure.pure, Except.pure,
      hmem, h1]
  · intro h1 h2
    refine ⟨"git exited with unexpected status " ++ toString env.diffCachedRc, ?_⟩
    simp [GitBranchCommitted.holds, GitSubaction.checkExpectedRc, Bind.bind, Except.bind, Pure.pure, Except.pure,
      hmem, h1, h2]

/-- Witness for C3: a dirty tree (`diff` exits 1, `diff --cached` exits
0) makes `holds` return `false` without failing, and both queries
exiting 0 makes it `true`. -/
theorem c3_committed_holds_exit_codes_witness :
    GitBranchCommitted.holds envDirty = Except.ok false ∧
    (GitBranchCommitted.holds envMemo = Except.ok true ↔
      envMemo.diffRc = 0 ∧ envMemo.diffCachedRc = 0) := by
  constructor
  · have h := (c3_committed_holds_exit_codes envDirty).1 (Or.inr rfl) (Or.inl rfl)
    simpa using h
  · exact (c3_committed_holds_exit_codes envMemo).2.1

/-- C1 as stated is false: in `envAhead` HEAD is strictly ahead of the
resolved remote branch `origin/main`, so the local HEAD is *not* an
ancestor of the remote branch (the second condition of the claim holds and
the claim then requires `holds()` to be false), the dry-run fetch stderr
carries no `..` marker, and yet `Pulled.holds` returns true — because
the source queries the converse direction, `merge-base --is-ancestor
origin/main HEAD`. -/
theorem c1_counterexample :
    GitBranchPulled.holds envAhead pulledMain = Except.ok true ∧
    envAhead.isAncestor "HEAD" "origin/main" = false ∧
    strContains (envAhead.fetchDryRunStderr "origin" "main") ".." = false ∧
    GitSubaction.query_upstream envAhead (some "main") = (some "origin", some "main") := by
  refine ⟨rfl, rfl, rfl, rfl⟩

/-- C1 amended: `Pulled.holds()` is false if the dry-run fetch stderr
contains the `..` marker, and also false, independently, if the resolved
remote branch is not an ancestor of the local HEAD (ancestry query
`merge-base --is-ancestor <remote>/<branch> HEAD` with accepted exit
codes 0 = is ancestor, 1 = is not); either condition alone suffices, and
`holds()` is true iff neither occurs. -/
theorem c1_pulled_holds_amended :
    ∀ (env : GitEnv) (p : PulledParams) (r b : String),
      GitSubaction.query_upstream env p.pull_from = (some r, some b) →
      GitBranchPulled.holds env p
          = Except.ok (!(strContains (env.fetchDryRunStderr r b) "..")
              && env.isAncestor (r ++ "/" ++ b) "HEAD") ∧
      (strContains (env.fetchDryRunStderr r b) ".." = true →
        GitBranchPulled.holds env p = Except.ok false) ∧
      (env.isAncestor (r ++ "/" ++ b) "HEAD" = false →
        GitBranchPulled.holds env p = Except.ok false) := by
  intro env p r b hup
  have hthrow : GitBranchPushOrPullBase.getUpstreamOrThrow env p.pull_from
      = Except.ok (r, b) := by
    unfold GitBranchPushOrPullBase.getUpstreamOrThrow
    rw [hup]
  have hmain : GitBranchPulled.holds env p
      = Except.ok (!(strContains (env.fetchDryRunStderr r b) "..")
          && env.isAncestor (r ++ "/" ++ b) "HEAD") := by
    unfold GitBranchPulled.holds
    rw [hthrow]
    cases hnf : strContains (env.fetchDryRunStderr r b) ".."
    · cases hanc : env.isAncestor (r ++ "/" ++ b) "HEAD"
      · simp [Bind.bind, Except.bind, Pure.pure, Except.pure, hnf, mergeBaseResult, hanc,
          GitSubaction.checkExpectedRc]
      · simp [Bind.bind, Except.bind, Pure.pure, Except.pure, hnf, mergeBaseResult, hanc,
          GitSubaction.checkExpectedRc]
    · simp [Bind.bind, Except.bind, Pure.pure, Except.pure, hnf]
  refine ⟨hmain, ?_, ?_⟩
  · intro hnf
    rw [hmain, hnf]
    simp
  · intro hanc
    rw [hmain, hanc]
    simp

/-- Witness for C1 (amended): evaluated in `envAhead`, where nothing
needs fetching and `origin/main` is an ancestor of HEAD, `holds` is
true, matching the amended formula. -/
theorem c1_pulled_holds_amended_witness :
    GitBranchPulled.holds envAhead pulledMain
      = Except.ok (!(strContains (envAhead.fetchDryRunStderr "origin" "main") "..")
          && envAhead.isAncestor ("origin" ++ "/" ++ "main") "HEAD") :=
  (c1_pulled_holds_amended envAhead pulledMain "origin" "main" rfl).1

/-- C8: the push arguments contain `--force` when `force` is set
(regardless of `force_with_lease`), `--force-with-lease` when only
`force_with_lease` is set, and neither flag otherwise — never both —
always followed by the resolved remote and remote branch; both the
dry-run push of `holds()` and the real push of `enforce()` use exactly
these arguments. -/
theorem c8_push_args :
    ∀ (env : GitEnv) (p : PushedParams) (r b : String),
      GitBranchPushOrPullBase.getUpstreamOrThrow env p.toSpec = Except.ok (r, b) →
      GitBranchPushed.push_args env p
          = Except.ok ((if p.force then ["--force"]
              else if p.force_with_lease then ["--force-with-lease"]
              else []) ++ [r, b]) ∧
      (p.force = true →
        GitBranchPushed.push_args env p = Except.ok ["--force", r, b]) ∧
      (p.force = false → p.force_with_lease = true →
        GitBranchPushed.push_args env p = Except.ok ["--force-with-lease", r, b]) ∧
      (p.force = false → p.force_with_lease = false →
        GitBranchPushed.push_args env p = Except.ok [r, b]) ∧
      ¬("--force" ∈ (if p.force then ["--force"]
            else if p.force_with_lease then ["--force-with-lease"]
            else ([] : List String)) ∧
        "--force-with-lease" ∈ (if p.force then ["--force"]
            else if p.force_with_lease then ["--force-with-lease"]
            else ([] : List String))) ∧
      GitBranchPushed.holdsQueryArgv env p
          = Except.ok ("push" :: "--dry-run" :: ((if p.force then ["--force"]
              else if p.force_with_lease then ["--force-with-lease"]
              else []) ++ [r, b])) ∧
      GitBranchPushed.enforceArgv env p
          = Except.ok ("push" :: ((if p.force then ["--force"]
              else if p.force_with_lease then ["--force-with-lease"]
              else []) ++ [r, b])) := by
  intro env p r b hup
  have hargs : GitBranchPushed.push_args env p
      = Except.ok ((if p.force then ["--force"]
          else if p.force_with_lease then ["--force-with-lease"]
          else []) ++ [r, b]) := by
    unfold GitBranchPushed.push_args
    rw [hup]
    rfl
  refine ⟨hargs, ?_, ?_, ?_, ?_, ?_, ?_⟩
  · intro hf
    rw [hargs, hf]
    rfl
  · intro hf hl
    rw [hargs, hf, hl]
    rfl
  · intro hf hl
    rw [hargs, hf, hl]
    rfl
  · cases hf : p.force
    · cases hl : p.force_with_lease
      · simp
      · simp
    · simp
  · unfold GitBranchPushed.holdsQueryArgv
    rw [hargs]
    rfl
  · unfold GitBranchPushed.enforceArgv
    rw [hargs]
    rfl

/-- A successfully constructed `GitBranchPulled` carries the common
kwargs it was invoked with. -/
lemma pulled_construct_common {c : CommonKw} {pf rb au : Option PyVal} {pc : DecodedPC}
    (h : GitBranchPulled.construct c pf rb au = Except.ok pc) : pc.common = c := by
  cases pf with
  | none => exact Except.noConfusion h
  | some x =>
    injection h with h1
    rw [← h1]
    rfl

/-- A successfully constructed `GitBranchPushed` carries the common
kwargs it was invoked with. -/
lemma pushed_construct_common {c : CommonKw} {kw : List (String × PyVal)} {pc : DecodedPC}
    (h : GitBranchPushed.construct c kw = Except.ok pc) : pc.common = c := by
  unfold GitBranchPushed.construct at h
  dsimp only at h
  split at h
  · injection h with h1
    rw [← h1]
    rfl
  · exact Except.noConfusion h

/-- Every postcondition decoded from the `committed` key carries the
common kwargs. -/
lemma decodeCommitted_common {c : CommonKw} {x : Option PyVal} {l : List DecodedPC}
    (h : decodeCommitted c x = Except.ok l) : ∀ pc ∈ l, pc.common = c := by
  intro pc hm
  cases x with
  | none =>
    injection h with h1
    rw [← h1] at hm
    simp at hm
  | some v =>
    cases v with
    | none =>
      injection h with h1
      rw [← h1] at hm
      simp at hm
    | bool b =>
      cases b with
      | false => exact Except.noConfusion h
      | true =>
        injection h with h1
        rw [← h1] at hm
        simp at hm
        rw [hm]
        rfl
    | str s => exact Except.noConfusion h
    | dict d =>
      have h2 : (match getKey d "message" with
          | Option.some m => Except.ok [DecodedPC.committed c m]
          | Option.none => Except.error "KeyError: message") = Except.ok l := h
      cases hk : getKey d "message" with
      | none =>
        rw [hk] at h2
        exact Except.noConfusion h2
      | some m =>
        rw [hk] at h2
        injection h2 with h1
        rw [← h1] at hm
        simp at hm
        rw [hm]
        rfl
    | list l2 => exact Except.noConfusion h

/-- Every postcondition decoded from one `pull` element carries the
common kwargs. -/
lemma decodePull_common {c : CommonKw} {x : PyVal} {pc : DecodedPC}
    (h : decodePull c x = Except.ok pc) : pc.common = c := by
  cases x with
  | none => exact Except.noConfusion h
  | bool b =>
    cases b with
    | false => exact Except.noConfusion h
    | true =>
      have h2 : GitBranchPulled.construct c Option.none Option.none Option.none
          = Except.ok pc := h
      exact pulled_construct_common h2
  | str s => exact Except.noConfusion h
  | dict d =>
    have h2 : GitBranchPulled.construct c (Option.some (pyGet d "from"))
        (Option.some (pyGet d "rebase")) (Option.some (pyGet d "autostash"))
        = Except.ok pc := h
    exact pulled_construct_common h2
  | list l2 => exact Except.noConfusion h

/-- Every postcondition decoded from the `pull` list carries the common
kwargs. -/
lemma decodePulls_common {c : CommonKw} {xs : List PyVal} {l : List DecodedPC}
    (h : decodePulls c xs = Except.ok l) : ∀ pc ∈ l, pc.common = c := by
  induction xs generalizing l with
  | nil =>
    injection h with h1
    rw [← h1]
    intro pc hm
    simp at hm
  | cons x rest ih =>
    intro pc hm
    unfold decodePulls at h
    split at h
    · exact Except.noConfusion h
    · rename_i pc1 heq1
      split at h
      · exact Except.noConfusion h
      · rename_i pcs1 heq2
        injection h with h1
        rw [← h1] at hm
        cases hm with
        | head => exact decodePull_common heq1
        | tail _ hm2 => exact ih heq2 pc hm2

/-- Every postcondition decoded from the `push` key carries the common
kwargs. -/
lemma decodePush_common {c : CommonKw} {x : Option PyVal} {l : List DecodedPC}
    (h : decodePush c x = Except.ok l) : ∀ pc ∈ l, pc.common = c := by
  intro pc hm
  cases x with
  | none =>
    injection h with h1
    rw [← h1] at hm
    simp at hm
  | some v =>
    have h2 : (if pyTruthy v then
        match v with
        | PyVal.dict d =>
            match GitBranchPushed.construct c d with
            | Except.error e => Except.error e
            | Except.ok pc => Except.ok [pc]
        | PyVal.bool true =>
            match GitBranchPushed.construct c [] with
            | Except.error e => Except.error e
            | Except.ok pc => Except.ok [pc]
        | _ => Except.error ("Unsupported type for `push`: " ++ pyTypeName v)
      else Except.ok ([] : List DecodedPC)) = Except.ok l := h
    by_cases ht : pyTruthy v = true
    · rw [if_pos ht] at h2
      cases v with
      | none => simp [pyTruthy] at ht
      | bool b =>
        cases b with
        | false => simp [pyTruthy] at ht
        | true =>
          have h3 : (match GitBranchPushed.construct c [] with
              | Except.error e => Except.error e
              | Except.ok pc => Except.ok [pc]) = Except.ok l := h2
          cases hc : GitBranchPushed.construct c [] with
          | error e =>
            rw [hc] at h3
            exact Except.noConfusion h3
          | ok pc1 =>
            rw [hc] at h3
            injection h3 with h1
            rw [← h1] at hm
            simp at hm
            rw [hm]
            exact pushed_construct_common hc
      | str s =>
        exact Except.noConfusion h2
      | dict d =>
        have h3 : (match GitBranchPushed.construct c d with
            | Except.error e => Except.error e
            | Except.ok pc => Except.ok [pc]) = Except.ok l := h2
        cases hc : GitBranchPushed.construct c d with
        | error e =>
          rw [hc] at h3
          exact Except.noConfusion h3
        | ok pc1 =>
          rw [hc] at h3
          injection h3 with h1
          rw [← h1] at hm
          simp at hm
          rw [hm]
          exact pushed_construct_common hc
      | list l2 =>
        exact Except.noConfusion h2
    · rw [if_neg ht] at h2
      injection h2 with h1
      rw [← h1] at hm
      simp at hm

/-- Every postcondition decoded by `as_postconditions` carries the mode
flag it was invoked with. -/
lemma as_postconditions_verify_common {ta todo : List (String × PyVal)} {v : Bool}
    {pcs : List DecodedPC} (h : as_postconditions ta todo v = Except.ok pcs) :
    ∀ pc ∈ pcs, pc.common.verify = v := by
  intro pc hm
  unfold as_postconditions at h
  dsimp only at h
  split at h
  · exact Except.noConfusion h
  · rename_i cmPcs heqCm
    split at h
    · exact Except.noConfusion h
    · rename_i pullPcs heqPull
      split at h
      · exact Except.noConfusion h
      · rename_i pushPcs heqPush
        split at h
        · exact Except.noConfusion h
        · split at h
          · exact Except.noConfusion h
          · injection h with h1
            rw [← h1] at hm
            simp only [List.mem_append] at hm
            rcases hm with ((hco | hcm) | hpull) | hpush
            · by_cases hif : pyTruthyOpt (popKey todo "checked_out").1 = true
              · rw [hif] at hco
                simp at hco
                rw [hco]
                rfl
              · simp [hif] at hco
            · have hcc := decodeCommitted_common heqCm pc hcm
              rw [hcc]
            · have hcc := decodePulls_common heqPull pc hpull
              rw [hcc]
            · have hcc := decodePush_common heqPush pc hpush
              rw [hcc]

/-- Appending a character list to the characters of a string is string
append. -/
lemma asString_append_left (g : String) (l : List Char) :
    (g.toList ++ l).asString = g ++ l.asString := by
  cases g
  rfl

/-- The `re.sub` of `_to_command_dict` on the string `"git " + arg`
always substitutes the leading `git` (the space after it is a word
boundary), keeping the rest of the scan. -/
lemma pySubGit_git_space (g a : String) :
    pySubGit g ("git " ++ a) = g ++ (' ' :: substGitGo g.toList a.toList).asString := by
  cases g
  cases a
  rfl

/-- C7: a single argument containing a space becomes a shell-interpreted
command line whose text is the `git `-prefixed argument with the
configured executable substituted for the default name `git` (in
particular the command line starts with the configured executable);
several space-free arguments become an argv-style invocation headed by
the configured executable; in both forms the repository path appears
only as the working directory (`chdir`) and the command text does not
depend on it. -/
theorem c7_to_command_dict :
    ∀ (g : String) (repo : Option String) (a : String) (args : List String),
      (strContains a " " = true →
        GitSubaction.to_command_dict g repo [a]
          = { uses_shell := true, chdir := repo,
              raw_params := some (pySubGit g ("git " ++ a)), argv := none } ∧
        pySubGit g ("git " ++ a) = g ++ (' ' :: substGitGo g.toList a.toList).asString) ∧
      (2 ≤ args.length → (∀ x ∈ args, strContains x " " = false) →
        GitSubaction.to_command_dict g repo args
          = { uses_shell := false, chdir := repo, raw_params := none,
              argv := some (g :: args) }) ∧
      (GitSubaction.to_command_dict g repo args).chdir = repo ∧
      ∀ repo2 : Option String,
        (GitSubaction.to_command_dict g repo args).raw_params
            = (GitSubaction.to_command_dict g repo2 args).raw_params ∧
        (GitSubaction.to_command_dict g repo args).argv
            = (GitSubaction.to_command_dict g repo2 args).argv := by
  intro g repo a args
  refine ⟨?_, ?_, ?_, ?_⟩
  · intro hsp
    constructor
    · unfold GitSubaction.to_command_dict
      simp [hsp]
    · exact pySubGit_git_space g a
  · intro hlen _hnosp
    match args, hlen with
    | x :: y :: rest, _ => rfl
  · cases args with
    | nil => rfl
    | cons x t =>
      cases t with
      | nil =>
        by_cases h : strContains x " "
        · simp [GitSubaction.to_command_dict, h]
        · simp [GitSubaction.to_command_dict, h]
      | cons y t2 => rfl
  · intro repo2
    cases args with
    | nil => exact ⟨rfl, rfl⟩
    | cons x t =>
      cases t with
      | nil =>
        by_cases h : strContains x " "
        · simp [GitSubaction.to_command_dict, h]
        · simp [GitSubaction.to_command_dict, h]
      | cons y t2 => exact ⟨rfl, rfl⟩

/-- Witness for C7: a shell snippet with a space is substituted (the
upstream-resolution snippet), and a two-element argv is prefixed with the
configured executable. -/
theorem c7_to_command_dict_witness :
    GitSubaction.to_command_dict "/opt/git" (some "/repo")
        ["for-each-ref \x22refs/heads/main\x22"]
      = { uses_shell := true, chdir := some "/repo",
          raw_params := some "/opt/git for-each-ref \x22refs/heads/main\x22",
          argv := none } ∧
    GitSubaction.to_command_dict "/opt/git" (some "/repo") ["branch", "--show-current"]
      = { uses_shell := false, chdir := some "/repo", raw_params := none,
          argv := some ["/opt/git", "branch", "--show-current"] } := by
  constructor
  · have h := (c7_to_command_dict "/opt/git" (some "/repo")
      "for-each-ref \x22refs/heads/main\x22" []).1 (by decide)
    rw [h.1]
    have h2 : pySubGit "/opt/git" ("git " ++ "for-each-ref \x22refs/heads/main\x22")
        = "/opt/git for-each-ref \x22refs/heads/main\x22" := by decide
    rw [h2]
  · exact (c7_to_command_dict "/opt/git" (some "/repo") ""
      ["branch", "--show-current"]).2.1 (by decide) (by decide)

/-- C10 as stated is false for `Committed`: its `explainer` concatenates
a `str` with the `None` moniker using Python `+` and raises `TypeError`,
so it produces no string at all (in particular no string containing
`None`). -/
theorem c10_counterexample :
    ¬ ∃ s, GitBranchCommitted.explainer (some "release") = Except.ok s := by
  rintro ⟨s, h⟩
  simp [GitBranchCommitted.explainer, GitBranchPostconditionBase.moniker] at h

/-- C10 amended: `moniker` always returns absent (its body is an
expression that is never returned); the explainer strings of
CheckedOut-with-a-branch-name, Pushed and Pulled `%s`-interpolate it and
so contain the text `None`; `Committed.explainer`, which uses `+`
instead of `%s`, raises a `TypeError` and produces no string. -/
theorem c10_moniker_amended :
    (∀ bn, GitBranchPostconditionBase.moniker bn = none) ∧
    (∀ bn, optStrTruthy bn = true →
      GitBranchCheckedOut.explainer bn = "checked_out: None is checked out") ∧
    (∀ p : PushedParams, GitBranchPushed.explainer p = "None is pushed") ∧
    (∀ (env : GitEnv) (p : PulledParams) (r b : String),
      GitSubaction.query_upstream env p.pull_from = (some r, some b) →
      GitBranchPulled.explainer env p
        = Except.ok ("None is up-to-date (pulled) from " ++ r ++ "/" ++ b)) ∧
    (∀ bn, GitBranchCommitted.explainer bn
      = Except.error "TypeError: can only concatenate str (not NoneType) to str") := by
  refine ⟨fun _ => rfl, ?_, fun _ => rfl, ?_, fun _ => rfl⟩
  · intro bn h
    unfold GitBranchCheckedOut.explainer
    rw [h]
    rfl
  · intro env p r b hup
    have hthrow : GitBranchPushOrPullBase.getUpstreamOrThrow env p.pull_from
        = Except.ok (r, b) := by
      unfold GitBranchPushOrPullBase.getUpstreamOrThrow
      rw [hup]
    unfold GitBranchPulled.explainer
    rw [hthrow]
    rfl

/-- Witness for C10 (amended): concrete explainer strings all carry the
text `None` where the branch description belongs. -/
theorem c10_moniker_amended_witness :
    GitBranchCheckedOut.explainer (some "release") = "checked_out: None is checked out" ∧
    GitBranchPulled.explainer envAhead pulledMain
      = Except.ok ("None is up-to-date (pulled) from " ++ "origin" ++ "/" ++ "main") := by
  constructor
  · exact c10_moniker_amended.2.1 (some "release") (by decide)
  · exact c10_moniker_amended.2.2.2.1 envAhead pulledMain "origin" "main" rfl

/-- C4 as stated is false: `GitBranchCommitted` overrides `passive`
without consulting `self.verify`, so in verify mode, on a dirty tree
(`holds()` false), a `Committed` postcondition carrying a commit message
returns absent from `passive()` instead of a reason string. -/
theorem c4_counterexample :
    GitBranchCommitted.holds envDirty = Except.ok false ∧
    GitBranchCommitted.passive true (some "commit message") = none := by
  exact ⟨rfl, rfl⟩

/-- C4 amended: in verify mode `passive()` returns a reason string for
CheckedOut, Pushed and Pulled (the verify branch of the base method),
while the `Committed` override ignores `verify` and returns absent
whenever a commit message is present; verify mode still never reaches
`enforce()`, because the (spec-modelled) driving loop treats an unmet
verify-mode postcondition as a failure whether or not `passive()`
returned a reason. -/
theorem c4_verify_passive_amended :
    (∀ bn, GitBranchCheckedOut.passive true bn
      = some (GitBranchCheckedOut.explainer bn
          ++ ": does not hold, bailing out (`verify` only)")) ∧
    (∀ p : PushedParams, GitBranchPushed.passive true p
      = some (GitBranchPushed.explainer p
          ++ ": does not hold, bailing out (`verify` only)")) ∧
    (∀ (env : GitEnv) (p : PulledParams) (r b : String),
      GitSubaction.query_upstream env p.pull_from = (some r, some b) →
      ∃ reason, GitBranchPulled.passive env p true = Except.ok (some reason)) ∧
    (∀ m, GitBranchCommitted.passive true m
      = if m.isSome then none
        else some "Cannot auto-commit â€” No `.commit.message` specified in task") ∧
    (∀ (q : PostconditionIface) (ck : Bool) (res : Outcome × Bool),
      q.verify = true → run_postcondition q ck = Except.ok res → res.2 = false) := by
  refine ⟨fun _ => rfl, fun _ => rfl, ?_, ?_, ?_⟩
  · intro env p r b hup
    have hthrow : GitBranchPushOrPullBase.getUpstreamOrThrow env p.pull_from
        = Except.ok (r, b) := by
      unfold GitBranchPushOrPullBase.getUpstreamOrThrow
      rw [hup]
    refine ⟨pyStr (GitBranchPostconditionBase.moniker p.branch_name)
        ++ " is up-to-date (pulled) from " ++ r ++ "/" ++ b
        ++ ": does not hold, bailing out (`verify` only)", ?_⟩
    unfold GitBranchPulled.passive GitBranchPulled.explainer
    rw [hthrow]
    rfl
  · intro m
    cases m with
    | none => rfl
    | some s => rfl
  · intro q ck res hv hrun
    unfold run_postcondition at hrun
    cases hh : q.holds with
    | error e =>
      rw [hh] at hrun
      simp [Bind.bind, Except.bind] at hrun
    | ok hb =>
      rw [hh] at hrun
      cases hb with
      | true =>
        simp [Bind.bind, Except.bind, Pure.pure, Except.pure] at hrun
        rw [← hrun]
      | false =>
        rw [hv] at hrun
        simp only [Bind.bind, Except.bind, Bool.true_or, if_false, if_true,
          Bool.false_eq_true] at hrun
        cases hp : q.passive with
        | error e =>
          rw [hp] at hrun
          simp at hrun
        | ok rsn =>
          rw [hp] at hrun
          cases rsn with
          | some reason =>
            simp [Pure.pure, Except.pure] at hrun
            rw [← hrun]
          | none =>
            simp [Pure.pure, Except.pure] at hrun
            rw [← hrun]

/-- Witness for C4 (amended): the Committed-with-message exception, a
CheckedOut reason string, a Pulled reason string in a concrete
environment, and the driving loop not enforcing a failed verify-mode
assertion. -/
theorem c4_verify_passive_amended_witness :
    GitBranchCommitted.passive true (some "msg") = none ∧
    GitBranchCheckedOut.passive true (some "main")
      = some (GitBranchCheckedOut.explainer (some "main")
          ++ ": does not hold, bailing out (`verify` only)") ∧
    (∃ reason, GitBranchPulled.passive envAhead pulledMain true = Except.ok (some reason)) ∧
    run_postcondition
        { verify := true, holds := Except.ok false, passive := Except.ok none } false
      = Except.ok (Outcome.assertionFailed, false) := by
  refine ⟨?_, ?_, ?_, ?_⟩
  · have h := c4_verify_passive_amended.2.2.2.1 (some "msg")
    simpa using h
  · exact c4_verify_passive_amended.1 (some "main")
  · exact c4_verify_passive_amended.2.2.1 envAhead pulledMain "origin" "main" rfl
  · have hrun : run_postcondition
        { verify := true, holds := Except.ok false, passive := Except.ok none } false
        = Except.ok (Outcome.assertionFailed, false) := rfl
    have _hnoenforce := c4_verify_passive_amended.2.2.2.2
      { verify := true, holds := Except.ok false, passive := Except.ok none } false
      (Outcome.assertionFailed, false) rfl hrun
    exact hrun

/-- Witness for C8: with both flags set in `envAhead`, only `--force` is
emitted, followed by the resolved remote and branch. -/
theorem c8_push_args_witness :
    GitBranchPushed.push_args envAhead
        { toSpec := some "main", force := true, force_with_lease := true,
          branch_name := some "main" }
      = Except.ok ["--force", "origin", "main"] :=
  (c8_push_args envAhead
    { toSpec := some "main", force := true, force_with_lease := true,
      branch_name := some "main" } "origin" "main" rfl).2.1 rfl

/-- C5: decoding `{ensure: {checked_out: true, pull: [{from: main,
rebase: true}, true]}, branch: release}` does **not** produce the
postconditions the claim lists: the first pull element (the dict)
decodes fine, but the bare `true` element constructs `GitBranchPulled`
with no kwargs of its own, and `pull_from` has no default, so the whole
decode raises `TypeError`. -/
theorem c5_decoder_scenario :
    as_postconditions scenarioTaskArgs scenarioTodo false
      = Except.error
          "TypeError: GitBranchPulled missing 1 required positional argument: pull_from" ∧
    decodePull
        { branch_name := .str "release", repository_path := .none,
          git_command := .none, verify := false }
        (.dict [("from", .str "main"), ("rebase", .bool true)])
      = Except.ok (.pulled
          { branch_name := .str "release", repository_path := .none,
            git_command := .none, verify := false }
          (.str "main") (.bool true) .none) ∧
    decodePull
        { branch_name := .str "release", repository_path := .none,
          git_command := .none, verify := false }
        (.bool true)
      = Except.error
          "TypeError: GitBranchPulled missing 1 required positional argument: pull_from" := by
  exact ⟨rfl, rfl, rfl⟩

/-- C6: task args containing both `verify` and `ensure`, or neither,
make the run fail with a configuration error (and hence decode no
postconditions and run no command); otherwise the present key selects
the mode of every decoded postcondition. -/
theorem c6_mode_selection :
    ∀ args : List (String × PyVal),
      (hasKey args "verify" = true → hasKey args "ensure" = true →
        ActionModule.run args
          = Except.error "`verify` and `ensure` are mutually exclusive") ∧
      (hasKey args "verify" = false → hasKey args "ensure" = false →
        ActionModule.run args
          = Except.error "One of `verify` and `ensure` must be present") ∧
      (∀ (v : Bool) (pcs : List DecodedPC),
        ActionModule.run args = Except.ok (v, pcs) →
        v = hasKey args "verify" ∧ ∀ pc ∈ pcs, pc.common.verify = v) := by
  intro args
  refine ⟨?_, ?_, ?_⟩
  · intro h1 h2
    unfold ActionModule.run
    rw [h1, h2]
    rfl
  · intro h1 h2
    unfold ActionModule.run
    rw [h1, h2]
    rfl
  · intro v pcs h
    unfold ActionModule.run at h
    by_cases h1 : hasKey args "verify" = true
    · rw [h1] at h
      by_cases h2 : hasKey args "ensure" = true
      · rw [h2] at h
        simp at h
      · rw [Bool.not_eq_true] at h2
        rw [h2] at h
        simp only [if_true, if_false, Bool.false_eq_true] at h
        unfold decodeTodo at h
        split at h
        · rename_i d hd
          split at h
          · exact Except.noConfusion h
          · rename_i pcs1 heq
            injection h with h3
            injection h3 with h4 h5
            refine ⟨by rw [h1, h4], ?_⟩
            rw [← h5, ← h4]
            exact as_postconditions_verify_common heq
        · exact Except.noConfusion h
    · rw [Bool.not_eq_true] at h1
      rw [h1] at h
      by_cases h2 : hasKey args "ensure" = true
      · rw [h2] at h
        simp only [if_true, if_false, Bool.false_eq_true] at h
        unfold decodeTodo at h
        split at h
        · rename_i d hd
          split at h
          · exact Except.noConfusion h
          · rename_i pcs1 heq
            injection h with h3
            injection h3 with h4 h5
            refine ⟨by rw [h1, h4], ?_⟩
            rw [← h5, ← h4]
            exact as_postconditions_verify_common heq
        · exact Except.noConfusion h
      · rw [Bool.not_eq_true] at h2
        rw [h2] at h
        simp at h

/-- Witness for C6: both keys present errors, neither key errors, and an
`ensure`-only input decodes with ensure mode. -/
theorem c6_mode_selection_witness :
    ActionModule.run [("verify", PyVal.dict []), ("ensure", PyVal.dict [])]
      = Except.error "`verify` and `ensure` are mutually exclusive" ∧
    ActionModule.run [] = Except.error "One of `verify` and `ensure` must be present" ∧
    (false = hasKey [("ensure", PyVal.dict [])] "verify" ∧
      ∀ pc ∈ ([] : List DecodedPC), pc.common.verify = false) := by
  refine ⟨?_, ?_, ?_⟩
  · exact (c6_mode_selection [("verify", PyVal.dict []), ("ensure", PyVal.dict [])]).1 rfl rfl
  · exact (c6_mode_selection []).2.1 rfl rfl
  · exact (c6_mode_selection [("ensure", PyVal.dict [])]).2.2 false [] rfl

/-- C9: the memoization is defeated by Python name mangling — the source
guards with `hasattr(self, "__upstream")` but stores under
`_GitBranchPushOrPullBase__upstream` (same for `__remotes`), so the
second call on the same instance issues a fresh repository query
instead of reading the cache: two calls cost two queries, not at most
one. -/
theorem c9_memoization_defeated :
    memoRun1.queries = 1 ∧ memoRun2.queries = 1 ∧
    memoRun1.state.hasattr "__upstream" = false ∧
    memoRun1.state.hasattr "_GitBranchPushOrPullBase__upstream" = true ∧
    memoRun1.value = Except.ok (some "origin", some "main") ∧
    memoRemotes1.queries = 1 ∧ memoRemotes2.queries = 1 ∧
    memoRemotes1.state.hasattr "__remotes" = false := by
  exact ⟨rfl, rfl, rfl, rfl, rfl, rfl, rfl, rfl⟩

end GitBranchSpec
